import Mathlib

/-!
Shallow embedding of the statistics pipeline of the dashboard component
(src/src/components/Dashboard.tsx): record extraction, time-window
filtering, boxplot statistics, linear-regression trend line, and the
histogram builder.  JavaScript numbers are modelled as rationals (ℚ);
presentational output fields (colors, text labels) are omitted.
-/

namespace Hackula

/-- The fields of a raw Jira issue that the chart pipeline reads
(Dashboard.tsx, processIssuesForCharts).  A JS field that may be
absent/null is an Option; `otherCustomFieldValues` holds the numeric
values of the remaining customfield_* entries in enumeration order
(non-numeric fields are excluded by the typeof-number test in the
source); `timetrackingTimeSpentSeconds` flattens
fields.timetracking?.timeSpentSeconds (none when either level is
missing); `worklogSeconds` is the list of timeSpentSeconds of
fields.worklog.worklogs ([] when the worklog object is missing);
`updated` is the parsed epoch timestamp of fields.updated, none when the
string is unparseable (Invalid Date). -/
structure RawIssue where
  customfield_10016 : Option ℚ
  customfield_10004 : Option ℚ
  customfield_10002 : Option ℚ
  customfield_10003 : Option ℚ
  customfield_10005 : Option ℚ
  otherCustomFieldValues : List ℚ
  timespent : Option ℚ
  timetrackingTimeSpentSeconds : Option ℚ
  worklogSeconds : List ℚ
  updated : Option ℚ
deriving DecidableEq, Repr

/-- JS truthiness of an optional number: present and nonzero. -/
def truthyNum : Option ℚ → Bool
  | none => false
  | some x => decide (x ≠ 0)

/-- JS `a || b` for an optional number `a`: `a` when truthy, else `b`. -/
def jsOr (a : Option ℚ) (b : ℚ) : ℚ :=
  match a with
  | some x => if x ≠ 0 then x else b
  | none => b

/-- Story-point extraction (Dashboard.tsx lines 428-469): the ||-chain over
the five known custom fields, then, when that yields 0, the heuristic scan
of the remaining numeric custom fields for the first value in (0, 100].
(The five named fields never qualify for the fallback scan themselves:
in the fallback-reachable state each is absent or zero, and the scan
requires a strictly positive value.) -/
def extractStoryPoints (i : RawIssue) : ℚ :=
  let sp := jsOr i.customfield_10016 (jsOr i.customfield_10004 (jsOr i.customfield_10002
    (jsOr i.customfield_10003 (jsOr i.customfield_10005 0))))
  if sp = 0 then
    (i.otherCustomFieldValues.filter (fun v => decide (0 < v) && decide (v ≤ 100))).headD 0
  else sp

/-- Effort extraction (Dashboard.tsx lines 471-492): try fields.timespent,
then fields.timetracking?.timeSpentSeconds, then the sum over worklog
entries (only when the worklogs array is non-empty); seconds are
converted to hours by dividing by 3600. -/
def extractTimeSpentHours (i : RawIssue) : ℚ :=
  if truthyNum i.timespent then i.timespent.getD 0 / 3600
  else if truthyNum i.timetrackingTimeSpentSeconds then
    i.timetrackingTimeSpentSeconds.getD 0 / 3600
  else if 0 < i.worklogSeconds.length then i.worklogSeconds.sum / 3600
  else 0

/-- The extracted record used by all three chart builders. -/
structure ProcIssue where
  storyPoints : ℚ
  timeSpentHours : ℚ
deriving DecidableEq, Repr

/-- The six values of the time-filter selector. -/
inductive TimeFilter
  | all
  | past1h
  | past1d
  | past1w
  | past1m
  | past3m
deriving DecidableEq, Repr

/-- Cutoff timestamp for a window given the clock reading `now`
(Dashboard.tsx lines 369-390); none for the `all` window.  The source
subtracts via Date mutation (setHours/setDate/setMonth); calendar months
are modelled as 30 days, which preserves the strict ordering
1h < 1d < 1w < 1m < 3m of window durations. -/
def cutoff (now : ℚ) : TimeFilter → Option ℚ
  | .all => none
  | .past1h => some (now - 3600)
  | .past1d => some (now - 86400)
  | .past1w => some (now - 7 * 86400)
  | .past1m => some (now - 30 * 86400)
  | .past3m => some (now - 90 * 86400)

/-- Time-window filter (Dashboard.tsx lines 363-396).  The source reads
the clock internally via new Date(); the embedding makes that ambient
clock reading the explicit argument `now`.  Under a non-`all` window a
record keeps iff its parsed updated timestamp is ≥ the cutoff; an
unparseable timestamp (Invalid Date, compared as NaN) never satisfies
the comparison and is excluded. -/
def keepAfter (c : ℚ) (i : RawIssue) : Bool :=
  match i.updated with
  | some u => decide (c ≤ u)
  | none => false

/-- The time-window filter itself; see keepAfter above. -/
def filterIssuesByTime (now : ℚ) (issues : List RawIssue) (tf : TimeFilter) : List RawIssue :=
  match cutoff now tf with
  | none => issues
  | some c => issues.filter (keepAfter c)

/-- Rank of a window by the duration it covers: a higher rank covers a
wider trailing range (`all` widest). -/
def windowWidthRank : TimeFilter → ℕ
  | .past1h => 0
  | .past1d => 1
  | .past1w => 2
  | .past1m => 3
  | .past3m => 4
  | .all => 5

/-- processIssuesForCharts (Dashboard.tsx lines 415-525): filter by time
window, extract (storyPoints, timeSpentHours) per issue, and keep the
records where at least one of the two signals is positive. -/
def processIssuesForCharts (now : ℚ) (issues : List RawIssue) (tf : TimeFilter) :
    List ProcIssue :=
  let filteredIssues := filterIssuesByTime now issues tf
  let processed := filteredIssues.map
    (fun i => ProcIssue.mk (extractStoryPoints i) (extractTimeSpentHours i))
  processed.filter (fun p => decide (0 < p.storyPoints) || decide (0 < p.timeSpentHours))

/-- Index of q1 in the sorted hours array: Math.floor(n * 0.25). -/
def q1Index (n : ℕ) : ℕ := Nat.floor ((n : ℚ) * 0.25)

/-- Index of the median in the sorted hours array: Math.floor(n * 0.5). -/
def medianIndex (n : ℕ) : ℕ := Nat.floor ((n : ℚ) * 0.5)

/-- Index of q3 in the sorted hours array: Math.floor(n * 0.75). -/
def q3Index (n : ℕ) : ℕ := Nat.floor ((n : ℚ) * 0.75)

/-- Per-group boxplot statistics. -/
structure BoxplotStat where
  q1 : ℚ
  median : ℚ
  q3 : ℚ
  lowerWhisker : ℚ
  upperWhisker : ℚ
  outliers : List ℚ
  count : ℕ
deriving DecidableEq, Repr

/-- The statistics block of createBoxplotData (Dashboard.tsx lines
569-601) applied to an already-sorted hours array: nearest-rank
quartiles, IQR, whiskers clamped to hours[0] and hours[n-1], and the
outliers strictly outside the whiskers. -/
def boxplotOfSorted (hours : List ℚ) : BoxplotStat :=
  let n := hours.length
  let q1 := hours.getD (q1Index n) 0
  let median := hours.getD (medianIndex n) 0
  let q3 := hours.getD (q3Index n) 0
  let iqr := q3 - q1
  let lowerWhisker := max (hours.getD 0 0) (q1 - 1.5 * iqr)
  let upperWhisker := min (hours.getD (n - 1) 0) (q3 + 1.5 * iqr)
  let outliers := hours.filter (fun h => decide (h < lowerWhisker) || decide (upperWhisker < h))
  ⟨q1, median, q3, lowerWhisker, upperWhisker, outliers, n⟩

/-- Boxplot statistics for a group's hours in arrival order: the source
sorts the group ascending (hours.sort((a, b) => a - b)) and then
computes the statistics. -/
def createBoxplotStat (group : List ℚ) : BoxplotStat :=
  boxplotOfSorted group.mergeSort

/-- The processed records that carry both signals (storyPoints > 0 and
timeSpentHours > 0); these feed the boxplot groups, the scatter points
and the per-estimate histogram series. -/
def withBothFields (processed : List ProcIssue) : List ProcIssue :=
  processed.filter (fun p => decide (0 < p.timeSpentHours) && decide (0 < p.storyPoints))

/-- The distinct story-point values among the records with both signals,
sorted ascending (the Set-then-sort of the source). -/
def uniqueStoryPoints (processed : List ProcIssue) : List ℚ :=
  ((withBothFields processed).map (fun p => p.storyPoints)).dedup.mergeSort

/-- createBoxplotData (Dashboard.tsx lines 527-651) reduced to its data
content: one (estimateValue, statistics) pair per distinct story-point
value, keys ascending, each group holding the hours of the records with
that exact story-point value, in arrival order, sorted inside
createBoxplotStat. -/
def createBoxplotData (processed : List ProcIssue) : List (ℚ × BoxplotStat) :=
  (uniqueStoryPoints processed).map (fun sp =>
    (sp, createBoxplotStat
      (((withBothFields processed).filter (fun p => decide (p.storyPoints = sp))).map
        (fun p => p.timeSpentHours))))

/-- Math.min over a spread array (reduce by min from the head). -/
def listMin : List ℚ → ℚ
  | [] => 0
  | x :: xs => xs.foldl min x

/-- Math.max over a spread array (reduce by max from the head). -/
def listMax : List ℚ → ℚ
  | [] => 0
  | x :: xs => xs.foldl max x

/-- Result of calculateTrendLine: the two endpoints of the drawn trend
line (empty when no trend is available) plus slope and intercept. -/
structure TrendResult where
  points : List (ℚ × ℚ)
  slope : ℚ
  intercept : ℚ
deriving DecidableEq, Repr

/-- The ordinary-least-squares denominator n·Σx² − (Σx)²; the source
divides by it unconditionally whenever data.length ≥ 2. -/
def trendDenom (data : List (ℚ × ℚ)) : ℚ :=
  (data.length : ℚ) * (data.map (fun p => p.1 * p.1)).sum
    - (data.map Prod.fst).sum * (data.map Prod.fst).sum

/-- calculateTrendLine (Dashboard.tsx lines 664-694).  Fewer than 2 data
points returns the no-trend marker (points = [], slope 0, intercept 0);
otherwise the closed-form OLS fit, with the line drawn from
extMin = max(0, minX − pad) to extMax = maxX + pad where
pad = 0.1 · ((maxX − minX) || 1), and each endpoint's y clamped below at
0 via Math.max(0, slope·x + intercept).  Note: the division by
trendDenom is unguarded in the source; in JS a zero denominator yields a
NaN slope (here, ℚ division by zero yields 0). -/
def calculateTrendLine (data : List (ℚ × ℚ)) : TrendResult :=
  if data.length < 2 then ⟨[], 0, 0⟩
  else
    let n : ℚ := (data.length : ℚ)
    let sumX := (data.map Prod.fst).sum
    let sumY := (data.map Prod.snd).sum
    let sumXY := (data.map (fun p => p.1 * p.2)).sum
    let sumXX := (data.map (fun p => p.1 * p.1)).sum
    let slope := (n * sumXY - sumX * sumY) / (n * sumXX - sumX * sumX)
    let intercept := (sumY - slope * sumX) / n
    let xs := data.map Prod.fst
    let minX := listMin xs
    let maxX := listMax xs
    let range := if maxX - minX = 0 then 1 else maxX - minX
    let pad := range * 0.1
    let extMin := max 0 (minX - pad)
    let extMax := maxX + pad
    ⟨[(extMin, max 0 (slope * extMin + intercept)),
      (extMax, max 0 (slope * extMax + intercept))], slope, intercept⟩

/-- createScatterplotData (Dashboard.tsx lines 653-738) reduced to its
data content: the (storyPoints, timeSpentHours) points of the records
with both signals, and the fitted trend. -/
def createScatterplotData (processed : List ProcIssue) : List (ℚ × ℚ) × TrendResult :=
  let scatterData := (processed.filter
    (fun p => decide (0 < p.storyPoints) && decide (0 < p.timeSpentHours))).map
    (fun p => (p.storyPoints, p.timeSpentHours))
  (scatterData, calculateTrendLine scatterData)

/-- A histogram bucket: inclusive lower bound, exclusive upper bound
(none = Infinity for the last bucket). -/
structure Bucket where
  bMin : ℚ
  bMax : Option ℚ
deriving DecidableEq, Repr

/-- The fixed effort buckets of createHistogramData:
[0,5), [5,10), [10,20), [20,40), [40,∞). -/
def buckets : List Bucket :=
  [⟨0, some 5⟩, ⟨5, some 10⟩, ⟨10, some 20⟩, ⟨20, some 40⟩, ⟨40, none⟩]

/-- Membership test of the source: hours ≥ bucket.min && hours < bucket.max
(every number is < Infinity). -/
def inBucket (h : ℚ) (b : Bucket) : Bool :=
  decide (b.bMin ≤ h) && (match b.bMax with
    | some m => decide (h < m)
    | none => true)

/-- Counts per bucket for a list of records. -/
def bucketCounts (l : List ProcIssue) : List ℕ :=
  buckets.map (fun b => (l.filter (fun p => inBucket p.timeSpentHours b)).length)

/-- One histogram series: its key (some storyPoints for a per-estimate
series, none for the catch-all No Story Points series) and the counts
per bucket. -/
structure HSeries where
  key : Option ℚ
  data : List ℕ
deriving DecidableEq, Repr

/-- The per-estimate histogram series: one per distinct story-point
value, counting the records with both signals and that exact value. -/
def histSpSeries (processed : List ProcIssue) : List HSeries :=
  (uniqueStoryPoints processed).map (fun sp =>
    HSeries.mk (some sp)
      (bucketCounts ((withBothFields processed).filter (fun p => decide (p.storyPoints = sp)))))

/-- The records with logged effort but storyPoints = 0 (the catch-all
No Story Points population). -/
def issuesWithoutSP (processed : List ProcIssue) : List ProcIssue :=
  processed.filter (fun p => decide (0 < p.timeSpentHours) && decide (p.storyPoints = 0))

/-- createHistogramData (Dashboard.tsx lines 740-871) reduced to its data
content: one series per distinct story-point value over the records with
both signals, plus, when any record has effort but storyPoints = 0, the
catch-all series; finally only series with at least one non-zero bucket
are kept. -/
def createHistogramData (processed : List ProcIssue) : List HSeries :=
  let allSeries := if 0 < (issuesWithoutSP processed).length then
      histSpSeries processed ++ [HSeries.mk none (bucketCounts (issuesWithoutSP processed))]
    else histSpSeries processed
  allSeries.filter (fun s => s.data.any (fun c => decide (0 < c)))

/-- The full recomputation pass: time-window filter + extraction feeding
the three chart builders (the reactive recompute of the dashboard on
each data or filter change). -/
def recompute (now : ℚ) (issues : List RawIssue) (tf : TimeFilter) :
    List (ℚ × BoxplotStat) × (List (ℚ × ℚ) × TrendResult) × List HSeries :=
  let processed := processIssuesForCharts now issues tf
  (createBoxplotData processed, createScatterplotData processed, createHistogramData processed)

/-- Modelled from the spec: the performance-deviation classification of
§4.3(e) is not present anywhere under src/ (no code computes
percentDiff or the 0.15/0.30 thresholds); these definitions follow the
spec's words.  The four classes. -/
inductive DeviationClass
  | onTarget
  | moderateDeviation
  | highDeviation
  | undefinedClass
deriving DecidableEq, Repr

/-- Modelled from the spec: the global ratio
expectedHoursPerPoint = totalHoursAcrossAllGroups / totalEstimatePointsAcrossAllGroups. -/
def expectedHoursPerPoint (totalHours totalPoints : ℚ) : ℚ :=
  totalHours / totalPoints

/-- Modelled from the spec: for a group,
percentDiff = |groupMean − estimateValue·expectedHoursPerPoint| / (estimateValue·expectedHoursPerPoint). -/
def percentDiff (groupMean expectedHours : ℚ) : ℚ :=
  |groupMean - expectedHours| / expectedHours

/-- Modelled from the spec: the classification thresholds — percentDiff
< 0.15 on-target, in [0.15, 0.30) moderate-deviation, ≥ 0.30
high-deviation, and undefined (not a crash) when the expected hours is
zero. -/
def classifyDeviation (groupMean expectedHours : ℚ) : DeviationClass :=
  if expectedHours = 0 then .undefinedClass
  else if percentDiff groupMean expectedHours < 0.15 then .onTarget
  else if percentDiff groupMean expectedHours < 0.30 then .moderateDeviation
  else .highDeviation

/-! ### Helper lemmas -/

/-- On non-negative custom-field data the extracted storyPoints value is
non-negative: the ||-chain returns one of the (non-negative) field
values or 0, and the fallback scan only accepts strictly positive
values. -/
lemma extractStoryPoints_nonneg (i : RawIssue)
    (h16 : 0 ≤ i.customfield_10016.getD 0) (h04 : 0 ≤ i.customfield_10004.getD 0)
    (h02 : 0 ≤ i.customfield_10002.getD 0) (h03 : 0 ≤ i.customfield_10003.getD 0)
    (h05 : 0 ≤ i.customfield_10005.getD 0) : 0 ≤ extractStoryPoints i := by
  have hjs : ∀ (a : Option ℚ) (b : ℚ), 0 ≤ a.getD 0 → 0 ≤ b → 0 ≤ jsOr a b := by
    intro a b ha hb
    cases a with
    | none => simpa [jsOr] using hb
    | some x =>
      simp only [jsOr]
      split_ifs with hx
      · simpa using ha
      · exact hb
  simp only [extractStoryPoints]
  split_ifs with h0
  · cases hh : i.otherCustomFieldValues.filter (fun v => decide (0 < v) && decide (v ≤ 100)) with
    | nil => simp [hh]
    | cons v t =>
      have hv : v ∈ i.otherCustomFieldValues.filter
          (fun v => decide (0 < v) && decide (v ≤ 100)) := by
        rw [hh]; exact List.mem_cons_self _ _
      have hb := (List.mem_filter.mp hv).2
      have hpos : 0 < v ∧ v ≤ 100 := by simpa using hb
      simpa using hpos.1.le
  · exact hjs _ _ h16 (hjs _ _ h04 (hjs _ _ h02 (hjs _ _ h03 (hjs _ _ h05 le_rfl))))

lemma q1Index_le_medianIndex (n : ℕ) : q1Index n ≤ medianIndex n := by
  apply Nat.floor_mono
  have : (0:ℚ) ≤ (n:ℚ) := Nat.cast_nonneg n
  nlinarith

lemma medianIndex_le_q3Index (n : ℕ) : medianIndex n ≤ q3Index n := by
  apply Nat.floor_mono
  have : (0:ℚ) ≤ (n:ℚ) := Nat.cast_nonneg n
  nlinarith

lemma q3Index_lt (n : ℕ) (h : 1 ≤ n) : q3Index n < n := by
  rw [q3Index, Nat.floor_lt (by positivity)]
  have : (1:ℚ) ≤ (n:ℚ) := by exact_mod_cast h
  nlinarith

lemma medianIndex_lt (n : ℕ) (h : 1 ≤ n) : medianIndex n < n :=
  lt_of_le_of_lt (medianIndex_le_q3Index n) (q3Index_lt n h)

lemma q1Index_lt (n : ℕ) (h : 1 ≤ n) : q1Index n < n :=
  lt_of_le_of_lt (q1Index_le_medianIndex n) (medianIndex_lt n h)

lemma foldl_min_le_init (t : List ℚ) (acc : ℚ) : t.foldl min acc ≤ acc := by
  induction t generalizing acc with
  | nil => simp
  | cons b t ih =>
    simpa using le_trans (ih (min acc b)) (min_le_left _ _)

lemma foldl_min_le_mem (t : List ℚ) (acc : ℚ) {x : ℚ} (hx : x ∈ t) :
    t.foldl min acc ≤ x := by
  induction t generalizing acc with
  | nil => cases hx
  | cons b t ih =>
    rcases List.mem_cons.mp hx with rfl | hx
    · exact le_trans (foldl_min_le_init t (min acc x)) (min_le_right _ _)
    · exact ih _ hx

lemma listMin_le {l : List ℚ} {x : ℚ} (hx : x ∈ l) : listMin l ≤ x := by
  cases l with
  | nil => cases hx
  | cons a t =>
    rcases List.mem_cons.mp hx with rfl | hx
    · exact foldl_min_le_init t x
    · exact foldl_min_le_mem t a hx

lemma init_le_foldl_max (t : List ℚ) (acc : ℚ) : acc ≤ t.foldl max acc := by
  induction t generalizing acc with
  | nil => simp
  | cons b t ih =>
    simpa using le_trans (le_max_left _ _) (ih (max acc b))

lemma mem_le_foldl_max (t : List ℚ) (acc : ℚ) {x : ℚ} (hx : x ∈ t) :
    x ≤ t.foldl max acc := by
  induction t generalizing acc with
  | nil => cases hx
  | cons b t ih =>
    rcases List.mem_cons.mp hx with rfl | hx
    · exact le_trans (le_max_right _ _) (init_le_foldl_max t (max acc x))
    · exact ih _ hx

lemma le_listMax {l : List ℚ} {x : ℚ} (hx : x ∈ l) : x ≤ listMax l := by
  cases l with
  | nil => cases hx
  | cons a t =>
    rcases List.mem_cons.mp hx with rfl | hx
    · exact init_le_foldl_max t x
    · exact mem_le_foldl_max t a hx

lemma sorted_getD_mono (s : List ℚ) (hs : s.Sorted (· ≤ ·)) {i j : ℕ}
    (hij : i ≤ j) (hj : j < s.length) : s.getD i 0 ≤ s.getD j 0 := by
  have hi : i < s.length := lt_of_le_of_lt hij hj
  rw [List.getD_eq_getElem _ _ hi, List.getD_eq_getElem _ _ hj]
  exact hs.rel_get_of_le (Fin.mk_le_mk.mpr hij)

/-- The ordering chain of boxplotOfSorted on a sorted non-empty array:
head ≤ lowerWhisker ≤ q1 ≤ median ≤ q3 ≤ upperWhisker ≤ last. -/
lemma boxplotOfSorted_chain (s : List ℚ) (hs : s.Sorted (· ≤ ·)) (hne : s ≠ []) :
    s.getD 0 0 ≤ (boxplotOfSorted s).lowerWhisker ∧
    (boxplotOfSorted s).lowerWhisker ≤ (boxplotOfSorted s).q1 ∧
    (boxplotOfSorted s).q1 ≤ (boxplotOfSorted s).median ∧
    (boxplotOfSorted s).median ≤ (boxplotOfSorted s).q3 ∧
    (boxplotOfSorted s).q3 ≤ (boxplotOfSorted s).upperWhisker ∧
    (boxplotOfSorted s).upperWhisker ≤ s.getD (s.length - 1) 0 := by
  have hl : 1 ≤ s.length := List.length_pos.mpr hne
  have hq1e : (boxplotOfSorted s).q1 = s.getD (q1Index s.length) 0 := rfl
  have hmede : (boxplotOfSorted s).median = s.getD (medianIndex s.length) 0 := rfl
  have hq3e : (boxplotOfSorted s).q3 = s.getD (q3Index s.length) 0 := rfl
  have hlwe : (boxplotOfSorted s).lowerWhisker =
      max (s.getD 0 0) ((boxplotOfSorted s).q1 -
        1.5 * ((boxplotOfSorted s).q3 - (boxplotOfSorted s).q1)) := rfl
  have huwe : (boxplotOfSorted s).upperWhisker =
      min (s.getD (s.length - 1) 0) ((boxplotOfSorted s).q3 +
        1.5 * ((boxplotOfSorted s).q3 - (boxplotOfSorted s).q1)) := rfl
  have h0q1 : s.getD 0 0 ≤ (boxplotOfSorted s).q1 := by
    rw [hq1e]
    exact sorted_getD_mono s hs (Nat.zero_le _) (q1Index_lt _ hl)
  have hq1med : (boxplotOfSorted s).q1 ≤ (boxplotOfSorted s).median := by
    rw [hq1e, hmede]
    exact sorted_getD_mono s hs (q1Index_le_medianIndex _) (medianIndex_lt _ hl)
  have hmedq3 : (boxplotOfSorted s).median ≤ (boxplotOfSorted s).q3 := by
    rw [hmede, hq3e]
    exact sorted_getD_mono s hs (medianIndex_le_q3Index _) (q3Index_lt _ hl)
  have hq3last : (boxplotOfSorted s).q3 ≤ s.getD (s.length - 1) 0 := by
    rw [hq3e]
    exact sorted_getD_mono s hs (Nat.le_pred_of_lt (q3Index_lt _ hl))
      (Nat.sub_lt hl one_pos)
  have hiqr : 0 ≤ (boxplotOfSorted s).q3 - (boxplotOfSorted s).q1 := by
    linarith
  refine ⟨?_, ?_, hq1med, hmedq3, ?_, ?_⟩
  · rw [hlwe]; exact le_max_left _ _
  · rw [hlwe]; exact max_le h0q1 (by linarith)
  · rw [huwe]; exact le_min hq3last (by linarith)
  · rw [huwe]; exact min_le_left _ _

/-- Every positive effort value falls in exactly one of the five fixed
buckets. -/
lemma buckets_partition (h : ℚ) (hp : 0 < h) :
    (buckets.map (fun b => if inBucket h b then 1 else 0)).sum = (1:ℕ) := by
  simp only [buckets, inBucket, List.map_cons, List.map_nil, List.sum_cons, List.sum_nil,
    Bool.and_true, Bool.and_eq_true, decide_eq_true_eq]
  rcases lt_or_le h 5 with h5 | h5
  · rw [if_pos ⟨hp.le, h5⟩, if_neg (fun hc => absurd hc.1 (by linarith)),
      if_neg (fun hc => absurd hc.1 (by linarith)),
      if_neg (fun hc => absurd hc.1 (by linarith)),
      if_neg (fun hc => absurd hc.1 (by linarith))]
    norm_num
  · rcases lt_or_le h 10 with h10 | h10
    · rw [if_neg (fun hc => absurd hc.2 (by linarith)), if_pos ⟨h5, h10⟩,
        if_neg (fun hc => absurd hc.1 (by linarith)),
        if_neg (fun hc => absurd hc.1 (by linarith)),
        if_neg (fun hc => absurd hc.1 (by linarith))]
      norm_num
    · rcases lt_or_le h 20 with h20 | h20
      · rw [if_neg (fun hc => absurd hc.2 (by linarith)),
          if_neg (fun hc => absurd hc.2 (by linarith)), if_pos ⟨h10, h20⟩,
          if_neg (fun hc => absurd hc.1 (by linarith)),
          if_neg (fun hc => absurd hc.1 (by linarith))]
        norm_num
      · rcases lt_or_le h 40 with h40 | h40
        · rw [if_neg (fun hc => absurd hc.2 (by linarith)),
            if_neg (fun hc => absurd hc.2 (by linarith)),
            if_neg (fun hc => absurd hc.2 (by linarith)), if_pos ⟨h20, h40⟩,
            if_neg (fun hc => absurd hc.1 (by linarith))]
          norm_num
        · rw [if_neg (fun hc => absurd hc.2 (by linarith)),
            if_neg (fun hc => absurd hc.2 (by linarith)),
            if_neg (fun hc => absurd hc.2 (by linarith)),
            if_neg (fun hc => absurd hc.2 (by linarith)), if_pos ⟨h40, trivial⟩]
          norm_num

lemma sum_filter_length_cons (bs : List Bucket) (p : ProcIssue) (t : List ProcIssue) :
    (bs.map (fun b => ((p :: t).filter (fun q => inBucket q.timeSpentHours b)).length)).sum
      = (bs.map (fun b => if inBucket p.timeSpentHours b then 1 else 0)).sum
        + (bs.map (fun b => (t.filter (fun q => inBucket q.timeSpentHours b)).length)).sum := by
  induction bs with
  | nil => simp
  | cons b bs ih =>
    simp only [List.map_cons, List.sum_cons]
    rw [ih, List.filter_cons]
    by_cases hb : inBucket p.timeSpentHours b
    · rw [if_pos hb, if_pos hb, List.length_cons]
      omega
    · rw [if_neg hb, if_neg hb]
      omega

/-- Over records with positive effort, the five bucket counts add up to
the record count. -/
lemma bucketCounts_sum (l : List ProcIssue) (hall : ∀ p ∈ l, 0 < p.timeSpentHours) :
    (bucketCounts l).sum = l.length := by
  induction l with
  | nil => simp [bucketCounts]
  | cons p t ih =>
    have hp : 0 < p.timeSpentHours := hall p (List.mem_cons_self p t)
    have ht : ∀ q ∈ t, 0 < q.timeSpentHours := fun q hq => hall q (List.mem_cons_of_mem _ hq)
    show (buckets.map (fun b => ((p :: t).filter (fun q => inBucket q.timeSpentHours b)).length)).sum
      = (p :: t).length
    rw [sum_filter_length_cons, buckets_partition p.timeSpentHours hp]
    have e : (buckets.map (fun b => (t.filter (fun q => inBucket q.timeSpentHours b)).length)).sum
        = t.length := ih ht
    rw [e, List.length_cons]
    omega

lemma length_filter_split {α : Type} (l : List α) (f : α → Bool) :
    (l.filter f).length + (l.filter (fun a => !(f a))).length = l.length := by
  induction l with
  | nil => rfl
  | cons a t ih =>
    by_cases h : f a <;> simp only [List.filter_cons, h, Bool.not_true, Bool.not_false,
      Bool.false_eq_true, if_false, if_pos, List.length_cons] <;> omega

/-- Partitioning a record list by a duplicate-free, covering key list:
the per-key filtered lengths add up to the total length. -/
lemma sum_countKey (keys : List ℚ) (l : List ProcIssue) (hnd : keys.Nodup)
    (hc : ∀ p ∈ l, p.storyPoints ∈ keys) :
    (keys.map (fun k => (l.filter (fun p => decide (p.storyPoints = k))).length)).sum
      = l.length := by
  induction keys generalizing l with
  | nil =>
    cases hl : l with
    | nil => simp
    | cons p t =>
      exact absurd (hc p (by rw [hl]; exact List.mem_cons_self p t)) (List.not_mem_nil _)
  | cons k ks ih =>
    simp only [List.map_cons, List.sum_cons]
    obtain ⟨hknotin, hksnd⟩ := List.nodup_cons.mp hnd
    have hrest : ∀ k' ∈ ks, (l.filter (fun p => decide (p.storyPoints = k'))).length
        = ((l.filter (fun p => !(decide (p.storyPoints = k)))).filter
            (fun p => decide (p.storyPoints = k'))).length := by
      intro k' hk'
      rw [List.filter_filter]
      congr 1
      apply List.filter_congr
      intro p _
      by_cases hsp : p.storyPoints = k'
      · have hne : k' ≠ k := fun h => hknotin (h ▸ hk')
        simp [hsp, hne]
      · simp [hsp]
    have hcov' : ∀ p ∈ l.filter (fun p => !(decide (p.storyPoints = k))),
        p.storyPoints ∈ ks := by
      intro p hp
      obtain ⟨hpl, hb⟩ := List.mem_filter.mp hp
      have hne : p.storyPoints ≠ k := by simpa using hb
      rcases List.mem_cons.mp (hc p hpl) with h | h
      · exact absurd h hne
      · exact h
    have hmape : (ks.map fun k' => (l.filter (fun p => decide (p.storyPoints = k'))).length)
        = ks.map fun k' => ((l.filter (fun p => !(decide (p.storyPoints = k)))).filter
            (fun p => decide (p.storyPoints = k'))).length :=
      List.map_congr_left hrest
    rw [hmape, ih (l.filter (fun p => !(decide (p.storyPoints = k)))) hksnd hcov']
    have := length_filter_split l (fun p => decide (p.storyPoints = k))
    omega

/-- Dropping the all-zero series does not change the total count. -/
lemma filter_nonzero_preserves_sum (series : List HSeries) :
    ((series.filter (fun s => s.data.any (fun c => decide (0 < c)))).map
      (fun s => s.data.sum)).sum = (series.map (fun s => s.data.sum)).sum := by
  induction series with
  | nil => rfl
  | cons s t ih =>
    by_cases h : s.data.any (fun c => decide (0 < c))
    · simp only [List.filter_cons, h, if_pos, List.map_cons, List.sum_cons, ih]
    · have hz : s.data.sum = 0 := by
        apply List.sum_eq_zero
        intro c hc
        by_contra hc0
        exact h (List.any_eq_true.mpr ⟨c, hc, by simpa using Nat.pos_of_ne_zero hc0⟩)
      simp only [List.filter_cons, h, Bool.false_eq_true, if_false, List.map_cons,
        List.sum_cons, ih, hz]
      omega

lemma mem_withBothFields_pos {processed : List ProcIssue} {p : ProcIssue}
    (hp : p ∈ withBothFields processed) :
    0 < p.timeSpentHours ∧ 0 < p.storyPoints := by
  have hb := (List.mem_filter.mp hp).2
  simpa using hb

/-- The per-estimate series counts add up to the number of records with
both signals. -/
lemma histSpSeries_sum (processed : List ProcIssue) :
    ((histSpSeries processed).map (fun s => s.data.sum)).sum
      = (withBothFields processed).length := by
  rw [histSpSeries, List.map_map]
  have hpt : ((uniqueStoryPoints processed).map
      ((fun s => s.data.sum) ∘ fun sp => HSeries.mk (some sp)
        (bucketCounts ((withBothFields processed).filter
          (fun p => decide (p.storyPoints = sp))))))
      = (uniqueStoryPoints processed).map (fun sp =>
        ((withBothFields processed).filter (fun p => decide (p.storyPoints = sp))).length) := by
    apply List.map_congr_left
    intro sp _
    apply bucketCounts_sum
    intro q hq
    exact (mem_withBothFields_pos (List.mem_filter.mp hq).1).1
  rw [hpt]
  apply sum_countKey
  · rw [uniqueStoryPoints]
    exact ((List.mergeSort_perm _ _).nodup_iff).mpr (List.nodup_dedup _)
  · intro p hp
    rw [uniqueStoryPoints, List.Perm.mem_iff (List.mergeSort_perm _ _), List.mem_dedup]
    exact List.mem_map_of_mem _ hp

/-- Splitting the positive-effort records by storyPoints > 0 versus
storyPoints = 0, valid when no storyPoints value is negative. -/
lemma split_by_sp (processed : List ProcIssue)
    (hsp : ∀ p ∈ processed, 0 ≤ p.storyPoints) :
    (withBothFields processed).length + (issuesWithoutSP processed).length
      = (processed.filter (fun p => decide (0 < p.timeSpentHours))).length := by
  induction processed with
  | nil => rfl
  | cons p t ih =>
    have hp : 0 ≤ p.storyPoints := hsp p (List.mem_cons_self p t)
    have ht : ∀ q ∈ t, 0 ≤ q.storyPoints := fun q hq => hsp q (List.mem_cons_of_mem _ hq)
    have iht := ih ht
    simp only [withBothFields, issuesWithoutSP] at iht ⊢
    rw [List.filter_cons, List.filter_cons, List.filter_cons]
    by_cases hh : (0:ℚ) < p.timeSpentHours
    · rcases lt_or_eq_of_le hp with hpos | hzero
      · have hnz : p.storyPoints ≠ 0 := ne_of_gt hpos
        rw [if_pos (by simp [hh, hpos]), if_neg (by simp [hh, hnz]), if_pos (by simp [hh]),
          List.length_cons, List.length_cons]
        omega
      · have hz : p.storyPoints = 0 := hzero.symm
        rw [if_neg (by simp [hz]), if_pos (by simp [hh, hz]), if_pos (by simp [hh]),
          List.length_cons, List.length_cons]
        omega
    · rw [if_neg (by simp [hh]), if_neg (by simp [hh]), if_neg (by simp [hh])]
      exact iht

/-! ### Claim theorems -/

/-- C10: for every non-empty group of size n ≥ 1, the three quartile
indices Math.floor(n·0.25), Math.floor(n·0.5), Math.floor(n·0.75) are
strictly below n, so hours[q1Index], hours[medianIndex], hours[q3Index]
are in-bounds accesses and q1, median, q3 are values taken from the
array, never an out-of-range access. -/
theorem boxplot_indexing_safe (hours : List ℚ) (hne : hours ≠ []) :
    (q1Index hours.length < hours.length ∧ medianIndex hours.length < hours.length ∧
      q3Index hours.length < hours.length) ∧
    (boxplotOfSorted hours).q1 ∈ hours ∧ (boxplotOfSorted hours).median ∈ hours ∧
    (boxplotOfSorted hours).q3 ∈ hours := by
  have hl : 1 ≤ hours.length := List.length_pos.mpr hne
  have h1 := q1Index_lt hours.length hl
  have h2 := medianIndex_lt hours.length hl
  have h3 := q3Index_lt hours.length hl
  refine ⟨⟨h1, h2, h3⟩, ?_, ?_, ?_⟩
  · show hours.getD (q1Index hours.length) 0 ∈ hours
    rw [List.getD_eq_getElem _ _ h1]
    exact List.getElem_mem h1
  · show hours.getD (medianIndex hours.length) 0 ∈ hours
    rw [List.getD_eq_getElem _ _ h2]
    exact List.getElem_mem h2
  · show hours.getD (q3Index hours.length) 0 ∈ hours
    rw [List.getD_eq_getElem _ _ h3]
    exact List.getElem_mem h3

/-- Witness for C10 at the sorted group [2, 3, 4]. -/
theorem boxplot_indexing_safe_witness :
    (boxplotOfSorted [(2:ℚ), 3, 4]).q1 ∈ ([(2:ℚ), 3, 4] : List ℚ) :=
  (boxplot_indexing_safe [(2:ℚ), 3, 4] (by decide)).2.1

/-- C1: for a non-empty ascending-sorted hours array of length n, the
boxplot statistics use nearest-rank indexing: q1 = hours[⌊n·0.25⌋],
median = hours[⌊n·0.5⌋], q3 = hours[⌊n·0.75⌋]; for n = 1 all three
equal the single value, the IQR is 0 and the outliers list is empty. -/
theorem quartiles_nearest_rank (hours : List ℚ) (hne : hours ≠ [])
    (hs : hours.Sorted (· ≤ ·)) :
    (createBoxplotStat hours).q1 = hours.getD (q1Index hours.length) 0 ∧
    (createBoxplotStat hours).median = hours.getD (medianIndex hours.length) 0 ∧
    (createBoxplotStat hours).q3 = hours.getD (q3Index hours.length) 0 ∧
    (hours.length = 1 →
      (createBoxplotStat hours).q1 = hours.getD 0 0 ∧
      (createBoxplotStat hours).median = hours.getD 0 0 ∧
      (createBoxplotStat hours).q3 = hours.getD 0 0 ∧
      (createBoxplotStat hours).q3 - (createBoxplotStat hours).q1 = 0 ∧
      (createBoxplotStat hours).outliers = []) := by
  have hms : hours.mergeSort = hours := List.mergeSort_eq_self hs
  simp only [createBoxplotStat, hms]
  refine ⟨rfl, rfl, rfl, fun h1 => ?_⟩
  obtain ⟨a, rfl⟩ := List.length_eq_one.mp h1
  have e1 : q1Index 1 = 0 := by rw [q1Index]; norm_num [Nat.floor_eq_zero]
  have e2 : medianIndex 1 = 0 := by rw [medianIndex]; norm_num [Nat.floor_eq_zero]
  have e3 : q3Index 1 = 0 := by rw [q3Index]; norm_num [Nat.floor_eq_zero]
  simp [boxplotOfSorted, e1, e2, e3, List.filter, lt_irrefl]

/-- Witness for C1 at the sorted group [2, 3, 4]. -/
theorem quartiles_nearest_rank_witness :
    (createBoxplotStat [(2:ℚ), 3, 4]).q1 =
      List.getD [(2:ℚ), 3, 4] (q1Index (List.length [(2:ℚ), 3, 4])) 0 :=
  (quartiles_nearest_rank [(2:ℚ), 3, 4] (by decide) (by decide)).1

/-- C7: effort extraction tries timespent, then the time-tracking
summary, then the worklog sum, in that fixed order; with non-negative
seconds values the first source with a positive value wins exclusively
(never summed across sources), and the chosen seconds are divided
by 3600.  (`Option.getD 0` reads a possibly-absent field as 0, which on
non-negative data makes JS truthiness coincide with positivity.) -/
theorem effort_extraction_order (i : RawIssue)
    (hn1 : 0 ≤ i.timespent.getD 0) (hn2 : 0 ≤ i.timetrackingTimeSpentSeconds.getD 0) :
    (0 < i.timespent.getD 0 →
      extractTimeSpentHours i = i.timespent.getD 0 / 3600) ∧
    (¬ 0 < i.timespent.getD 0 → 0 < i.timetrackingTimeSpentSeconds.getD 0 →
      extractTimeSpentHours i = i.timetrackingTimeSpentSeconds.getD 0 / 3600) ∧
    (¬ 0 < i.timespent.getD 0 → ¬ 0 < i.timetrackingTimeSpentSeconds.getD 0 →
      i.worklogSeconds ≠ [] →
      extractTimeSpentHours i = i.worklogSeconds.sum / 3600) ∧
    (¬ 0 < i.timespent.getD 0 → ¬ 0 < i.timetrackingTimeSpentSeconds.getD 0 →
      i.worklogSeconds = [] → extractTimeSpentHours i = 0) := by
  have t1 : truthyNum i.timespent = true ↔ 0 < i.timespent.getD 0 := by
    cases h : i.timespent with
    | none => simp [truthyNum]
    | some x =>
      rw [h] at hn1
      simp only [truthyNum, Option.getD_some, decide_eq_true_eq]
      constructor
      · intro hx; exact lt_of_le_of_ne (by simpa using hn1) (Ne.symm hx)
      · intro hx; exact ne_of_gt hx
  have t2 : truthyNum i.timetrackingTimeSpentSeconds = true ↔
      0 < i.timetrackingTimeSpentSeconds.getD 0 := by
    cases h : i.timetrackingTimeSpentSeconds with
    | none => simp [truthyNum]
    | some x =>
      rw [h] at hn2
      simp only [truthyNum, Option.getD_some, decide_eq_true_eq]
      constructor
      · intro hx; exact lt_of_le_of_ne (by simpa using hn2) (Ne.symm hx)
      · intro hx; exact ne_of_gt hx
  refine ⟨?_, ?_, ?_, ?_⟩
  · intro h
    rw [extractTimeSpentHours, if_pos (t1.mpr h)]
  · intro h h2
    rw [extractTimeSpentHours, if_neg (by rw [t1]; exact h), if_pos (t2.mpr h2)]
  · intro h h2 h3
    rw [extractTimeSpentHours, if_neg (by rw [t1]; exact h),
      if_neg (by rw [t2]; exact h2), if_pos (List.length_pos.mpr h3)]
  · intro h h2 h3
    rw [extractTimeSpentHours, if_neg (by rw [t1]; exact h),
      if_neg (by rw [t2]; exact h2), if_neg (by simp [h3])]

/-- Witness for C7: an issue carrying all three sources uses only
timespent (7200 s = 2 h), ignoring the others. -/
theorem effort_extraction_order_witness :
    extractTimeSpentHours
      (RawIssue.mk none none none none none [] (some 7200) (some 1800) [900] none) =
      (7200:ℚ) / 3600 :=
  (effort_extraction_order
    (RawIssue.mk none none none none none [] (some 7200) (some 1800) [900] none)
    (by decide) (by decide)).1 (by decide)

/-- C2 (code bug): for two data points sharing one x value (fewer than 2
distinct points, zero x-variance), the OLS denominator n·Σx² − (Σx)² is
0, yet calculateTrendLine proceeds past its only guard
(data.length < 2), divides by that zero denominator (NaN slope in JS
floats), and returns two drawn trend points instead of the explicit
no-trend marker (the empty points list). -/
theorem trend_zero_variance_unguarded :
    trendDenom [((2:ℚ), 3), (2, 5)] = 0 ∧
    (List.map Prod.fst [((2:ℚ), 3), (2, 5)]).dedup.length = 1 ∧
    (calculateTrendLine [((2:ℚ), 3), (2, 5)]).points ≠ [] := by
  refine ⟨by norm_num [trendDenom], by norm_num [List.dedup_cons_of_mem], ?_⟩
  norm_num [calculateTrendLine]
  exact List.cons_ne_nil _ _

/-- Evaluation of calculateTrendLine at the sample points (1, 0) and
(2, 10): fitted line y = 10x − 10, drawn from x = 0.9 to x = 2.1 with
the left endpoint's y clamped from −1 up to 0. -/
lemma calcTrend_sample :
    calculateTrendLine [((1:ℚ), 0), (2, 10)] =
      TrendResult.mk [(9/10, 0), (21/10, 11)] 10 (-10) := by
  rw [calculateTrendLine, if_neg (by norm_num)]
  norm_num [listMin, listMax]

/-- C8 counterexample: for the points (1, 0) and (2, 10) the fitted line
is y = 10x − 10; at the left endpoint x = 0.9 the fitted value is −1,
but the returned y-coordinate is Math.max(0, −1) = 0 — the endpoint ys
are clamped below at 0, not the raw evaluation of slope·x + intercept. -/
theorem trend_endpoint_y_clamped :
    ((calculateTrendLine [((1:ℚ), 0), (2, 10)]).points.map Prod.snd).getD 0 99 ≠
      (calculateTrendLine [((1:ℚ), 0), (2, 10)]).slope *
        (((calculateTrendLine [((1:ℚ), 0), (2, 10)]).points.map Prod.fst).getD 0 99) +
        (calculateTrendLine [((1:ℚ), 0), (2, 10)]).intercept := by
  rw [calcTrend_sample]
  norm_num

/-- C8 (amended): for ≥ 2 data points the trend line is drawn between
exactly two endpoints at x = max(0, minX − pad) and x = maxX + pad,
pad = 0.1·range with range defaulting to 1 when maxX = minX, and each
endpoint's y-coordinate is max(0, slope·x + intercept) — the fitted
line clamped below at zero; the left endpoint never lies below 0 on
the x-axis. -/
theorem trend_endpoints (data : List (ℚ × ℚ)) (h : 2 ≤ data.length) :
    (calculateTrendLine data).points =
      [(max 0 (listMin (data.map Prod.fst) -
          (if listMax (data.map Prod.fst) - listMin (data.map Prod.fst) = 0 then 1
            else listMax (data.map Prod.fst) - listMin (data.map Prod.fst)) * 0.1),
        max 0 ((calculateTrendLine data).slope *
          (max 0 (listMin (data.map Prod.fst) -
            (if listMax (data.map Prod.fst) - listMin (data.map Prod.fst) = 0 then 1
              else listMax (data.map Prod.fst) - listMin (data.map Prod.fst)) * 0.1)) +
          (calculateTrendLine data).intercept)),
       (listMax (data.map Prod.fst) +
          (if listMax (data.map Prod.fst) - listMin (data.map Prod.fst) = 0 then 1
            else listMax (data.map Prod.fst) - listMin (data.map Prod.fst)) * 0.1,
        max 0 ((calculateTrendLine data).slope *
          (listMax (data.map Prod.fst) +
            (if listMax (data.map Prod.fst) - listMin (data.map Prod.fst) = 0 then 1
              else listMax (data.map Prod.fst) - listMin (data.map Prod.fst)) * 0.1) +
          (calculateTrendLine data).intercept))] ∧
    0 ≤ (max 0 (listMin (data.map Prod.fst) -
      (if listMax (data.map Prod.fst) - listMin (data.map Prod.fst) = 0 then 1
        else listMax (data.map Prod.fst) - listMin (data.map Prod.fst)) * 0.1)) := by
  have hn : ¬ data.length < 2 := Nat.not_lt.mpr h
  rw [calculateTrendLine, if_neg hn]
  exact ⟨rfl, le_max_left 0 _⟩

/-- Witness for C8's amended statement at the points (1, 0), (2, 10):
endpoints (0.9, 0) and (2.1, 11). -/
theorem trend_endpoints_witness :
    (calculateTrendLine [((1:ℚ), 0), (2, 10)]).points =
      [(9/10, 0), (21/10, 11)] := by
  have h := (trend_endpoints [((1:ℚ), 0), (2, 10)] (by norm_num)).1
  rw [h]
  norm_num [listMin, listMax, calculateTrendLine]

/-- An issue with one hour of logged time (timespent = 3600 s) and an
updated timestamp of 1000 (epoch seconds), no story points. -/
def sampleIssue : RawIssue :=
  RawIssue.mk none none none none none [] (some 3600) none [] (some 1000)

/-- C3 counterexample: the source's filterIssuesByTime takes only
(issues, timeFilter) and reads the clock internally via new Date(), so
the pipeline's output is not determined by (records, window): two calls
with identical records and window, made at wall-clock readings 2000 and
10000, return different results (under the 1h window the issue updated
at 1000 is kept at the first reading and dropped at the second, and the
histogram output differs accordingly).  `now` is not an injected
parameter. -/
theorem recompute_depends_on_wall_clock :
    filterIssuesByTime 2000 [sampleIssue] .past1h ≠
        filterIssuesByTime 10000 [sampleIssue] .past1h ∧
      recompute 2000 [sampleIssue] .past1h ≠ recompute 10000 [sampleIssue] .past1h := by
  have hf1 : filterIssuesByTime 2000 [sampleIssue] .past1h = [sampleIssue] := by
    norm_num [filterIssuesByTime, cutoff, List.filter_cons, keepAfter, sampleIssue]
  have hf2 : filterIssuesByTime 10000 [sampleIssue] .past1h = [] := by
    norm_num [filterIssuesByTime, cutoff, List.filter_cons, keepAfter, sampleIssue]
  have hp1 : processIssuesForCharts 2000 [sampleIssue] .past1h = [ProcIssue.mk 0 1] := by
    norm_num [processIssuesForCharts, filterIssuesByTime, cutoff, List.filter_cons, keepAfter,
      sampleIssue, extractStoryPoints, extractTimeSpentHours, jsOr, truthyNum]
  have hp2 : processIssuesForCharts 10000 [sampleIssue] .past1h = [] := by
    norm_num [processIssuesForCharts, filterIssuesByTime, cutoff, List.filter_cons, keepAfter,
      sampleIssue]
  have hh1 : (recompute 2000 [sampleIssue] .past1h).2.2 = [HSeries.mk none [1, 0, 0, 0, 0]] := by
    show createHistogramData (processIssuesForCharts 2000 [sampleIssue] .past1h) = _
    rw [hp1]
    norm_num [createHistogramData, histSpSeries, issuesWithoutSP, withBothFields,
      uniqueStoryPoints, List.filter_cons, bucketCounts, inBucket, buckets, List.mergeSort_nil]
  have hh2 : (recompute 10000 [sampleIssue] .past1h).2.2 = [] := by
    show createHistogramData (processIssuesForCharts 10000 [sampleIssue] .past1h) = _
    rw [hp2]
    norm_num [createHistogramData, histSpSeries, issuesWithoutSP, withBothFields,
      uniqueStoryPoints, List.filter_cons, bucketCounts, inBucket, buckets, List.mergeSort_nil]
  constructor
  · rw [hf1, hf2]; exact List.cons_ne_nil _ _
  · intro h
    have h3 := congrArg (fun r => r.2.2) h
    simp only [hh1, hh2] at h3
    exact List.cons_ne_nil _ _ h3

/-- C3 (amended): the recomputation pipeline is deterministic and
idempotent as a function of (records, window, clock reading): it is a
pure function with no hidden mutable state and no randomness, and any
two calls whose records, window and observed clock value coincide
return deep-equal outputs.  (The clock value is read from the wall
clock inside the filter rather than being passed by the caller.) -/
theorem recompute_deterministic (issues1 issues2 : List RawIssue)
    (tf1 tf2 : TimeFilter) (t1 t2 : ℚ)
    (hi : issues1 = issues2) (hw : tf1 = tf2) (ht : t1 = t2) :
    recompute t1 issues1 tf1 = recompute t2 issues2 tf2 := by
  subst hi; subst hw; subst ht; rfl

/-- Witness for C3's amended statement. -/
theorem recompute_deterministic_witness :
    recompute 2000 [sampleIssue] .past1h = recompute 2000 [sampleIssue] .past1h :=
  recompute_deterministic [sampleIssue] [sampleIssue] .past1h .past1h 2000 2000 rfl rfl rfl

lemma filter_keepAfter_mono (issues : List RawIssue) {c1 c2 : ℚ} (h : c1 ≤ c2) :
    (issues.filter (keepAfter c2)).length ≤ (issues.filter (keepAfter c1)).length := by
  apply List.Sublist.length_le
  apply List.monotone_filter_right
  intro i hi
  cases hu : i.updated with
  | none => simp [keepAfter, hu] at hi
  | some u =>
    simp only [keepAfter, hu, decide_eq_true_eq] at hi ⊢
    linarith

/-- C9: for a fixed record list and a fixed clock reading, a window
covering a wider trailing range (higher windowWidthRank; `all` widest)
never returns fewer records: the filter's record count is monotone in
the window width. -/
theorem window_monotonicity (now : ℚ) (issues : List RawIssue) (a b : TimeFilter)
    (h : windowWidthRank b ≤ windowWidthRank a) :
    (filterIssuesByTime now issues b).length ≤ (filterIssuesByTime now issues a).length := by
  cases a <;> cases b <;>
    simp only [filterIssuesByTime, cutoff, windowWidthRank] at h ⊢ <;>
    first
      | exact le_refl _
      | exact List.length_filter_le _ _
      | exact filter_keepAfter_mono issues (by linarith)
      | omega

/-- Witness for C9: with the clock at 2000, PAST_3_MONTHS keeps at least
as many records as PAST_MONTH. -/
theorem window_monotonicity_witness :
    (filterIssuesByTime 2000 [sampleIssue] .past1m).length ≤
      (filterIssuesByTime 2000 [sampleIssue] .past3m).length :=
  window_monotonicity 2000 [sampleIssue] .past3m .past1m (by decide)

/-- C4 (spec-modelled): the deviation classification is on-target for
percentDiff < 0.15, moderate-deviation on [0.15, 0.30),
high-deviation for ≥ 0.30, and undefined — not a crash — when the
expected hours is zero. -/
theorem deviation_classification (groupMean expectedHours : ℚ) :
    (expectedHours = 0 →
      classifyDeviation groupMean expectedHours = DeviationClass.undefinedClass) ∧
    (expectedHours ≠ 0 →
      ((classifyDeviation groupMean expectedHours = DeviationClass.onTarget ↔
          percentDiff groupMean expectedHours < 0.15) ∧
       (classifyDeviation groupMean expectedHours = DeviationClass.moderateDeviation ↔
          0.15 ≤ percentDiff groupMean expectedHours ∧
            percentDiff groupMean expectedHours < 0.30) ∧
       (classifyDeviation groupMean expectedHours = DeviationClass.highDeviation ↔
          0.30 ≤ percentDiff groupMean expectedHours))) := by
  constructor
  · intro h
    rw [classifyDeviation, if_pos h]
  · intro h
    rw [classifyDeviation, if_neg h]
    split_ifs with h1 h2
    · refine ⟨⟨fun _ => h1, fun _ => rfl⟩, ⟨fun hc => absurd hc (by decide),
        fun hc => absurd h1 (not_lt.mpr hc.1)⟩, ⟨fun hc => absurd hc (by decide),
        fun hc => absurd h1 (not_lt.mpr (le_trans (by norm_num) hc))⟩⟩
    · refine ⟨⟨fun hc => absurd hc (by decide), fun hp => absurd hp h1⟩,
        ⟨fun _ => ⟨not_lt.mp h1, h2⟩, fun _ => rfl⟩,
        ⟨fun hc => absurd hc (by decide), fun hp => absurd h2 (not_lt.mpr hp)⟩⟩
    · refine ⟨⟨fun hc => absurd hc (by decide), fun hp => absurd hp h1⟩,
        ⟨fun hc => absurd hc (by decide), fun hp => absurd hp.2 h2⟩,
        ⟨fun _ => not_lt.mp h2, fun _ => rfl⟩⟩

/-- Witness for C4: zero expected hours classifies as undefined, and a
group with mean 10 against expected 8 (percentDiff = 0.25) classifies
as moderate-deviation. -/
theorem deviation_classification_witness :
    classifyDeviation 10 0 = DeviationClass.undefinedClass ∧
      classifyDeviation 10 8 = DeviationClass.moderateDeviation :=
  ⟨(deviation_classification 10 0).1 rfl,
    ((deviation_classification 10 8).2 (by norm_num)).2.1.mpr
      ⟨by norm_num [percentDiff], by norm_num [percentDiff]⟩⟩

/-- C5: for every non-empty group the computed boxplot values satisfy
min(hours) ≤ lowerWhisker ≤ q1 ≤ median ≤ q3 ≤ upperWhisker ≤
max(hours) — the whiskers are clamped to the observed data range, never
extrapolated past the observed min/max — and all four stacked bar
segments (q1 − lowerWhisker, median − q1, q3 − median,
upperWhisker − q3) are non-negative. -/
theorem whisker_ordering (group : List ℚ) (hne : group ≠ []) :
    (listMin group ≤ (createBoxplotStat group).lowerWhisker ∧
     (createBoxplotStat group).lowerWhisker ≤ (createBoxplotStat group).q1 ∧
     (createBoxplotStat group).q1 ≤ (createBoxplotStat group).median ∧
     (createBoxplotStat group).median ≤ (createBoxplotStat group).q3 ∧
     (createBoxplotStat group).q3 ≤ (createBoxplotStat group).upperWhisker ∧
     (createBoxplotStat group).upperWhisker ≤ listMax group) ∧
    (0 ≤ (createBoxplotStat group).q1 - (createBoxplotStat group).lowerWhisker ∧
     0 ≤ (createBoxplotStat group).median - (createBoxplotStat group).q1 ∧
     0 ≤ (createBoxplotStat group).q3 - (createBoxplotStat group).median ∧
     0 ≤ (createBoxplotStat group).upperWhisker - (createBoxplotStat group).q3) := by
  have hperm : group.mergeSort.Perm group := List.mergeSort_perm group _
  have hsorted : group.mergeSort.Sorted (· ≤ ·) := List.sorted_mergeSort' group
  have hne2 : group.mergeSort ≠ [] := by
    intro h
    apply hne
    have hlen := hperm.length_eq
    rw [h] at hlen
    exact List.length_eq_zero.mp hlen.symm
  obtain ⟨c1, c2, c3, c4, c5, c6⟩ := boxplotOfSorted_chain group.mergeSort hsorted hne2
  have h0 : 0 < group.mergeSort.length := List.length_pos.mpr hne2
  have hmem0 : group.mergeSort.getD 0 0 ∈ group := by
    rw [List.getD_eq_getElem _ _ h0]
    exact hperm.subset (List.getElem_mem h0)
  have hmemL : group.mergeSort.getD (group.mergeSort.length - 1) 0 ∈ group := by
    have hL : group.mergeSort.length - 1 < group.mergeSort.length := Nat.sub_lt h0 one_pos
    rw [List.getD_eq_getElem _ _ hL]
    exact hperm.subset (List.getElem_mem hL)
  have e : createBoxplotStat group = boxplotOfSorted group.mergeSort := rfl
  rw [e]
  exact ⟨⟨le_trans (listMin_le hmem0) c1, c2, c3, c4, c5, le_trans c6 (le_listMax hmemL)⟩,
    by linarith, by linarith, by linarith, by linarith⟩

/-- Witness for C5 at the unsorted group [9, 2, 4]. -/
theorem whisker_ordering_witness :
    listMin [(9:ℚ), 2, 4] ≤ (createBoxplotStat [(9:ℚ), 2, 4]).lowerWhisker :=
  (whisker_ordering [(9:ℚ), 2, 4] (by decide)).1.1

/-- C6: when no extracted storyPoints value is negative (the extractor
yields non-negative values on non-negative field data), the bucket
counts summed over all emitted histogram series equal the number of
processed records with timeSpentHours > 0, and every emitted series has
at least one non-zero bucket. -/
theorem histogram_bucket_completeness (processed : List ProcIssue)
    (hsp : ∀ p ∈ processed, 0 ≤ p.storyPoints) :
    ((createHistogramData processed).map (fun s => s.data.sum)).sum =
      (processed.filter (fun p => decide (0 < p.timeSpentHours))).length ∧
    ∀ s ∈ createHistogramData processed,
      s.data.any (fun c => decide (0 < c)) = true := by
  have e0 : createHistogramData processed =
      ((if 0 < (issuesWithoutSP processed).length then
          histSpSeries processed ++ [HSeries.mk none (bucketCounts (issuesWithoutSP processed))]
        else histSpSeries processed).filter
          (fun s => s.data.any (fun c => decide (0 < c)))) := rfl
  constructor
  · rw [e0, filter_nonzero_preserves_sum]
    have hnosp_pos : ∀ q ∈ issuesWithoutSP processed, 0 < q.timeSpentHours := by
      intro q hq
      have hb := (List.mem_filter.mp hq).2
      exact (by simpa using hb : 0 < q.timeSpentHours ∧ q.storyPoints = 0).1
    have hsplit := split_by_sp processed hsp
    by_cases hn : 0 < (issuesWithoutSP processed).length
    · rw [if_pos hn, List.map_append, List.sum_append, histSpSeries_sum]
      have hc : ([HSeries.mk none (bucketCounts (issuesWithoutSP processed))].map
          (fun s => s.data.sum)).sum = (issuesWithoutSP processed).length := by
        simp only [List.map_cons, List.map_nil, List.sum_cons, List.sum_nil, add_zero]
        exact bucketCounts_sum _ hnosp_pos
      rw [hc]
      exact hsplit
    · rw [if_neg hn, histSpSeries_sum]
      omega
  · intro s hs
    rw [e0] at hs
    exact (List.mem_filter.mp hs).2

/-- Witness for C6 at the records (sp 1, 2 h) and (sp 0, 7 h): one
per-estimate series and the catch-all series, 1 + 1 = 2 records with
positive effort. -/
theorem histogram_bucket_completeness_witness :
    ((createHistogramData [ProcIssue.mk 1 2, ProcIssue.mk 0 7]).map
      (fun s => s.data.sum)).sum =
      (([ProcIssue.mk 1 2, ProcIssue.mk 0 7] : List ProcIssue).filter
        (fun p => decide (0 < p.timeSpentHours))).length :=
  (histogram_bucket_completeness [ProcIssue.mk 1 2, ProcIssue.mk 0 7] (by decide)).1

end Hackula
